import Mathlib

/-!
Shallow embedding of the retrieval-augmented question answering subsystem of
the portfolio web application: the chunker (rag/chunker.js), the embedding
store (rag/embed.js), the retriever (rag/retriever.js) and the responder
(rag/llm.js).  JavaScript numbers are modelled as real numbers (integers for
the keyword scores, which the code only ever builds from 0 by adding 1 and 2),
arrays as lists, absent or null values as Option, and each asynchronous
capability call as an explicit function parameter returning Option, where
none stands for a failed or rejected call.
-/

namespace PortfolioRag

/-- Character-level model of JavaScript String.prototype.toLowerCase (kept
kernel-computable, unlike String.toLower). -/
def toLowerStr (s : String) : String := String.mk (s.data.map Char.toLower)

/-- Splits a character list at every character satisfying p, keeping the
(possibly empty) fragments between consecutive separators. -/
def splitChars (p : Char → Bool) : List Char → List Char → List (List Char)
  | [], acc => [acc.reverse]
  | c :: cs, acc =>
      if p c then acc.reverse :: splitChars p cs []
      else splitChars p cs (c :: acc)

/-- Character-level model of splitting a string on single separator
characters.  The JavaScript split on the whitespace-run regex differs from
this only by empty fragments, which the token length filter removes. -/
def splitP (s : String) (p : Char → Bool) : List String :=
  (splitChars p s.data []).map String.mk

/-- Substring test, modelling JavaScript String.prototype.includes. -/
def strContains (hay needle : String) : Bool :=
  decide (needle.toList <:+: hay.toList)

/-- A list-valued section of the portfolio JSON document: absent (or any
falsy value), a truthy value that is not an array, or an array of records.
The source guards every such section with
portfolio.x && Array.isArray(portfolio.x). -/
inductive Sect (α : Type) where
  | missing : Sect α
  | notArray : Sect α
  | arr : List α → Sect α
deriving DecidableEq

/-- Fields of the profile section destructured by the chunker. -/
structure ProfileRec where
  name : String
  title : String
  location : String
  email : String
  summary : String
deriving DecidableEq

/-- One skill category record. -/
structure SkillCat where
  category : String
  items : List String
deriving DecidableEq

/-- One project record. -/
structure ProjectRec where
  title : String
  description : String
  technologies : List String
deriving DecidableEq

/-- One experience record; highlights is guarded by an Array.isArray check in
the source and description by a truthiness check (the empty string is falsy
in JavaScript). -/
structure ExperienceRec where
  role : String
  company : String
  period : String
  highlights : Sect String
  description : Option String
deriving DecidableEq

/-- One education record. -/
structure EduRec where
  degree : String
  institution : String
  year : String
deriving DecidableEq

/-- One certification record. -/
structure CertRec where
  name : String
  issuer : String
  year : String
deriving DecidableEq

/-- One social-link record. -/
structure SocialRec where
  platform : String
  url : String
deriving DecidableEq

/-- The parsed portfolio document, as read by chunkPortfolio. -/
structure Doc where
  profile : Option ProfileRec
  skills : Sect SkillCat
  projects : Sect ProjectRec
  experience : Sect ExperienceRec
  education : Sect EduRec
  certifications : Sect CertRec
  interests : Sect String
  socials : Sect SocialRec
deriving DecidableEq

/-- The retrieval unit produced by the chunker. -/
structure Chunk where
  id : String
  type : String
  text : String
deriving DecidableEq

/-- Template for the profile chunk (rag/chunker.js line 164). -/
def profileText (p : ProfileRec) : String :=
  "Profile: " ++ p.name ++ " is a " ++ p.title ++ " based in " ++ p.location ++
    ". Email: " ++ p.email ++ ". " ++ p.summary

/-- Template for a skill chunk (rag/chunker.js line 174). -/
def skillText (s : SkillCat) : String :=
  "Skills - " ++ s.category ++ ": " ++ String.intercalate ", " s.items

/-- Template for a project chunk (rag/chunker.js line 185). -/
def projectText (p : ProjectRec) : String :=
  "Project: " ++ p.title ++ ". " ++ p.description ++ ". Technologies used: " ++
    String.intercalate ", " p.technologies ++ "."

/-- Template for an experience chunk (rag/chunker.js lines 193 to 199):
highlights, when an array, are preferred over the description field. -/
def experienceText (e : ExperienceRec) : String :=
  let base := "Experience: " ++ e.role ++ " at " ++ e.company ++ " (" ++ e.period ++ ")."
  match e.highlights with
  | Sect.arr hs => base ++ " Key achievements: " ++ String.intercalate ". " hs ++ "."
  | _ =>
    match e.description with
    | some d => if d = "" then base else base ++ " " ++ d
    | none => base

/-- Template for an education chunk (rag/chunker.js line 214). -/
def educationText (e : EduRec) : String :=
  "Education: " ++ e.degree ++ " from " ++ e.institution ++ " (" ++ e.year ++ ")"

/-- Template for a certification chunk (rag/chunker.js line 225). -/
def certText (c : CertRec) : String :=
  "Certification: " ++ c.name ++ " issued by " ++ c.issuer ++ ", obtained in " ++ c.year

/-- Template for the combined certifications summary chunk (line 229). -/
def certSummaryText (cs : List CertRec) : String :=
  "All Certifications: " ++
    String.intercalate ", " (cs.map (fun c => c.name ++ " (" ++ c.issuer ++ ")"))

/-- Template for the interests chunk (rag/chunker.js line 242). -/
def interestsText (xs : List String) : String :=
  "Interests and Hobbies: " ++ String.intercalate ", " xs

/-- Template for the socials chunk (rag/chunker.js lines 248 to 252). -/
def socialsText (ss : List SocialRec) : String :=
  "Social Links: " ++ String.intercalate ", " (ss.map (fun s => s.platform ++ ": " ++ s.url))

/-- Sequential push of the profile chunk (rag/chunker.js lines 159 to 166). -/
def pushProfile (acc : List Chunk) (o : Option ProfileRec) : List Chunk :=
  match o with
  | some p => acc ++ [{ id := "profile", type := "profile", text := profileText p }]
  | none => acc

/-- Sequential push of the skill chunks (rag/chunker.js lines 169 to 177). -/
def pushSkills (acc : List Chunk) (s : Sect SkillCat) : List Chunk :=
  match s with
  | Sect.arr xs =>
      acc ++ xs.enum.map (fun ix =>
        { id := "skill-" ++ toString ix.1, type := "skill", text := skillText ix.2 })
  | _ => acc

/-- Sequential push of the project chunks (rag/chunker.js lines 180 to 188). -/
def pushProjects (acc : List Chunk) (s : Sect ProjectRec) : List Chunk :=
  match s with
  | Sect.arr xs =>
      acc ++ xs.enum.map (fun ix =>
        { id := "project-" ++ toString ix.1, type := "project", text := projectText ix.2 })
  | _ => acc

/-- Sequential push of the experience chunks (rag/chunker.js lines 191 to 206). -/
def pushExperience (acc : List Chunk) (s : Sect ExperienceRec) : List Chunk :=
  match s with
  | Sect.arr xs =>
      acc ++ xs.enum.map (fun ix =>
        { id := "experience-" ++ toString ix.1, type := "experience", text := experienceText ix.2 })
  | _ => acc

/-- Sequential push of the education chunks (rag/chunker.js lines 209 to 217). -/
def pushEducation (acc : List Chunk) (s : Sect EduRec) : List Chunk :=
  match s with
  | Sect.arr xs =>
      acc ++ xs.enum.map (fun ix =>
        { id := "education-" ++ toString ix.1, type := "education", text := educationText ix.2 })
  | _ => acc

/-- Sequential push of the certification chunks followed by the combined
summary chunk (rag/chunker.js lines 220 to 235). -/
def pushCertifications (acc : List Chunk) (s : Sect CertRec) : List Chunk :=
  match s with
  | Sect.arr xs =>
      (acc ++ xs.enum.map (fun ix =>
        { id := "certification-" ++ toString ix.1, type := "certification",
          text := certText ix.2 })) ++
        [{ id := "certifications-summary", type := "certification", text := certSummaryText xs }]
  | _ => acc

/-- Sequential push of the interests chunk (rag/chunker.js lines 238 to 244). -/
def pushInterests (acc : List Chunk) (s : Sect String) : List Chunk :=
  match s with
  | Sect.arr xs =>
      acc ++ [{ id := "interests", type := "interests", text := interestsText xs }]
  | _ => acc

/-- Sequential push of the socials chunk (rag/chunker.js lines 247 to 254). -/
def pushSocials (acc : List Chunk) (s : Sect SocialRec) : List Chunk :=
  match s with
  | Sect.arr xs =>
      acc ++ [{ id := "socials", type := "social", text := socialsText xs }]
  | _ => acc

/-- chunkPortfolio (rag/chunker.js lines 150 to 261).  The input is none when
the document could not be read or parsed, in which case the catch handler
returns the empty chunk list; otherwise the chunks array is built by the
sequence of section pushes in source order. -/
def chunkPortfolio (d : Option Doc) : List Chunk :=
  match d with
  | none => []
  | some portfolio =>
      pushSocials
        (pushInterests
          (pushCertifications
            (pushEducation
              (pushExperience
                (pushProjects
                  (pushSkills
                    (pushProfile [] portfolio.profile)
                    portfolio.skills)
                  portfolio.projects)
                portfolio.experience)
              portfolio.education)
            portfolio.certifications)
          portfolio.interests)
        portfolio.socials

/-- Chunks contributed by the profile section alone. -/
def profilePart : Option ProfileRec → List Chunk
  | some p => [{ id := "profile", type := "profile", text := profileText p }]
  | none => []

/-- Chunks contributed by the skills section alone. -/
def skillsPart : Sect SkillCat → List Chunk
  | Sect.arr xs =>
      xs.enum.map (fun ix =>
        { id := "skill-" ++ toString ix.1, type := "skill", text := skillText ix.2 })
  | _ => []

/-- Chunks contributed by the projects section alone. -/
def projectsPart : Sect ProjectRec → List Chunk
  | Sect.arr xs =>
      xs.enum.map (fun ix =>
        { id := "project-" ++ toString ix.1, type := "project", text := projectText ix.2 })
  | _ => []

/-- Chunks contributed by the experience section alone. -/
def experiencePart : Sect ExperienceRec → List Chunk
  | Sect.arr xs =>
      xs.enum.map (fun ix =>
        { id := "experience-" ++ toString ix.1, type := "experience", text := experienceText ix.2 })
  | _ => []

/-- Chunks contributed by the education section alone. -/
def educationPart : Sect EduRec → List Chunk
  | Sect.arr xs =>
      xs.enum.map (fun ix =>
        { id := "education-" ++ toString ix.1, type := "education", text := educationText ix.2 })
  | _ => []

/-- Chunks contributed by the certifications section alone: one chunk per
certification followed by the combined summary chunk. -/
def certificationsPart : Sect CertRec → List Chunk
  | Sect.arr xs =>
      xs.enum.map (fun ix =>
        { id := "certification-" ++ toString ix.1, type := "certification",
          text := certText ix.2 }) ++
        [{ id := "certifications-summary", type := "certification", text := certSummaryText xs }]
  | _ => []

/-- Chunks contributed by the interests section alone. -/
def interestsPart : Sect String → List Chunk
  | Sect.arr xs => [{ id := "interests", type := "interests", text := interestsText xs }]
  | _ => []

/-- Chunks contributed by the socials section alone. -/
def socialsPart : Sect SocialRec → List Chunk
  | Sect.arr xs => [{ id := "socials", type := "social", text := socialsText xs }]
  | _ => []

/-- Specification-shaped chunker: each section contributes its chunks
independently, concatenated in the fixed section order of the source. -/
def chunkPortfolioSpec : Option Doc → List Chunk
  | none => []
  | some p =>
      profilePart p.profile ++ skillsPart p.skills ++ projectsPart p.projects ++
        experiencePart p.experience ++ educationPart p.education ++
        certificationsPart p.certifications ++ interestsPart p.interests ++
        socialsPart p.socials

lemma pushProfile_eq (acc : List Chunk) (o : Option ProfileRec) :
    pushProfile acc o = acc ++ profilePart o := by
  cases o <;> simp [pushProfile, profilePart]

lemma pushSkills_eq (acc : List Chunk) (s : Sect SkillCat) :
    pushSkills acc s = acc ++ skillsPart s := by
  cases s <;> simp [pushSkills, skillsPart]

lemma pushProjects_eq (acc : List Chunk) (s : Sect ProjectRec) :
    pushProjects acc s = acc ++ projectsPart s := by
  cases s <;> simp [pushProjects, projectsPart]

lemma pushExperience_eq (acc : List Chunk) (s : Sect ExperienceRec) :
    pushExperience acc s = acc ++ experiencePart s := by
  cases s <;> simp [pushExperience, experiencePart]

lemma pushEducation_eq (acc : List Chunk) (s : Sect EduRec) :
    pushEducation acc s = acc ++ educationPart s := by
  cases s <;> simp [pushEducation, educationPart]

lemma pushCertifications_eq (acc : List Chunk) (s : Sect CertRec) :
    pushCertifications acc s = acc ++ certificationsPart s := by
  cases s <;> simp [pushCertifications, certificationsPart]

lemma pushInterests_eq (acc : List Chunk) (s : Sect String) :
    pushInterests acc s = acc ++ interestsPart s := by
  cases s <;> simp [pushInterests, interestsPart]

lemma pushSocials_eq (acc : List Chunk) (s : Sect SocialRec) :
    pushSocials acc s = acc ++ socialsPart s := by
  cases s <;> simp [pushSocials, socialsPart]

/-- The chunker factors as the concatenation of the per-section
contributions, in source order. -/
lemma chunkPortfolio_eq_spec (d : Option Doc) :
    chunkPortfolio d = chunkPortfolioSpec d := by
  cases d with
  | none => rfl
  | some p =>
      simp [chunkPortfolio, chunkPortfolioSpec, pushProfile_eq, pushSkills_eq,
        pushProjects_eq, pushExperience_eq, pushEducation_eq,
        pushCertifications_eq, pushInterests_eq, pushSocials_eq,
        List.append_assoc]

/-- One record of the embedding cache: a chunk optionally paired with a
vector (rag/embed.js); embedding is none where the source stores null. -/
structure EmbRecord where
  id : String
  type : String
  text : String
  embedding : Option (List ℝ)

/-- Static configuration of the pluggable provider, as consulted by
isProviderConfigured and supportsEmbeddings (rag/providers.js). -/
structure ProviderCfg where
  configured : Bool
  supportsEmb : Bool
deriving DecidableEq

/-- initializeEmbeddings (rag/embed.js lines 122 to 181), with the mutable
module-level cache modelled as the return value, the current document as an
Option Doc and each embeddings.create call as embedFn, returning none when
the call rejects.  Promise.all rejects as soon as any one call rejects, and
the catch handler then rebuilds every record with a null embedding. -/
def initEmbeddings (d : Option Doc) (cfg : ProviderCfg) (embedFn : String → Option (List ℝ)) :
    List EmbRecord :=
  if (chunkPortfolio d).length = 0 then []
  else if ¬ cfg.configured then
    (chunkPortfolio d).map (fun c =>
      { id := c.id, type := c.type, text := c.text, embedding := none })
  else if ¬ cfg.supportsEmb then
    (chunkPortfolio d).map (fun c =>
      { id := c.id, type := c.type, text := c.text, embedding := none })
  else if (chunkPortfolio d).all (fun c => (embedFn c.text).isSome) then
    (chunkPortfolio d).map (fun c =>
      { id := c.id, type := c.type, text := c.text, embedding := embedFn c.text })
  else
    (chunkPortfolio d).map (fun c =>
      { id := c.id, type := c.type, text := c.text, embedding := none })

/-- Sum of squares of a vector, the loop accumulators normA and normB of
cosineSimilarity. -/
def sumSq (v : List ℝ) : ℝ := (v.map (fun x => x * x)).sum

/-- Dot product accumulated by the loop of cosineSimilarity. -/
def dotL (a b : List ℝ) : ℝ := (List.zipWith (fun x y => x * y) a b).sum

open Classical in
/-- cosineSimilarity (rag/embed.js lines 193 to 209): 0 when either vector is
null, the lengths differ, or either norm accumulator is zero; otherwise the
normalized dot product. -/
noncomputable def cosineSimilarity (vecA vecB : Option (List ℝ)) : ℝ :=
  match vecA, vecB with
  | some a, some b =>
      if a.length ≠ b.length then 0
      else if sumSq a = 0 ∨ sumSq b = 0 then 0
      else dotL a b / (Real.sqrt (sumSq a) * Real.sqrt (sumSq b))
  | _, _ => 0

/-- A retrieval result entry with an integer keyword score. -/
structure ScoredZ where
  text : String
  type : String
  score : ℤ
deriving DecidableEq

/-- A retrieval result entry with a real similarity score. -/
structure ScoredR where
  text : String
  type : String
  score : ℝ

/-- Casts a keyword-scored entry into the common result shape. -/
def zToR (s : ScoredZ) : ScoredR := { text := s.text, type := s.type, score := (s.score : ℝ) }

/-- TOP_K (rag/retriever.js line 3). -/
def TOP_K : ℕ := 5

/-- Query tokenization (rag/retriever.js line 55): lower-case, split on
whitespace runs, keep only tokens longer than 2 characters.  The JavaScript
split on a whitespace regex differs from the character split only by empty
fragments, which the length filter removes. -/
def queryTokens (query : String) : List String :=
  (splitP (toLowerStr query) Char.isWhitespace).filter (fun w => w.length > 2)

/-- The fixed topic keyword table (rag/retriever.js lines 69 to 78); an
unknown chunk type has no entry, hence contributes no bonus. -/
def typeKeywords (t : String) : List String :=
  if t = "project" then
    ["project", "built", "created", "developed", "app", "website", "pipeline", "system"]
  else if t = "skill" then
    ["skill", "know", "technology", "language", "framework", "tool", "tech", "stack"]
  else if t = "experience" then
    ["work", "job", "company", "role", "position", "experience", "career", "employed"]
  else if t = "education" then
    ["education", "degree", "university", "school", "study", "college", "bachelor", "master"]
  else if t = "profile" then
    ["who", "about", "name", "contact", "email", "summary", "introduce"]
  else if t = "social" then
    ["social", "link", "github", "linkedin", "twitter", "medium", "portfolio", "website"]
  else if t = "certification" then
    ["certification", "certified", "certificate", "credential", "badge", "qualification"]
  else if t = "interests" then
    ["interest", "hobby", "hobbies", "like", "enjoy", "passion", "free time", "fun"]
  else []

/-- The per-chunk keyword score (rag/retriever.js lines 57 to 93): starting
from 0, one forEach loop adds 1 per query word contained in the lower-cased
chunk text, then a second loop adds 2 per type keyword matched by some query
word in either containment direction. -/
def keywordScore (queryWords : List String) (c : EmbRecord) : ℤ :=
  let textLower := toLowerStr c.text
  let s1 : ℤ := queryWords.foldl (fun acc w => if strContains textLower w then acc + 1 else acc) 0
  (typeKeywords c.type).foldl
    (fun acc k =>
      if queryWords.any (fun w => strContains w k || strContains k w) then acc + 2 else acc) s1

/-- Descending-score comparison used to model the stable JavaScript sort with
comparator (a, b) => b.score - a.score on integer scores. -/
def descZ (a b : ScoredZ) : Bool := decide (b.score ≤ a.score)

open Classical in
/-- Descending-score comparison for real scores, modelling the same stable
sort in vector mode. -/
noncomputable def descR (a b : ScoredR) : Bool := decide (b.score ≤ a.score)

/-- retrieveByKeyword (rag/retriever.js lines 54 to 107). -/
def retrieveByKeyword (query : String) (cache : List EmbRecord) : List ScoredZ :=
  let queryWords := queryTokens query
  let scored := cache.map (fun c =>
    { text := c.text, type := c.type, score := keywordScore queryWords c })
  let sorted := scored.mergeSort descZ
  let relevant := sorted.filter (fun s => decide (0 < s.score))
  if TOP_K ≤ relevant.length then relevant.take TOP_K
  else sorted.take TOP_K

/-- retrieveByEmbedding (rag/retriever.js lines 30 to 49): the query
embedding parameter stands for the awaited generateQueryEmbedding result,
none meaning unconfigured, unsupported or failed, in which case the call
falls back to keyword retrieval with integer scores cast into the common
result shape. -/
noncomputable def retrieveByEmbedding (qEmb : Option (List ℝ)) (query : String)
    (cache : List EmbRecord) : List ScoredR :=
  match qEmb with
  | none => (retrieveByKeyword query cache).map zToR
  | some qe =>
      let scored := cache.map (fun c =>
        { text := c.text, type := c.type, score := cosineSimilarity (some qe) c.embedding })
      (scored.mergeSort descR).take TOP_K

/-- retrieveRelevantChunks (rag/retriever.js lines 10 to 25). -/
noncomputable def retrieveRelevantChunks (qEmb : Option (List ℝ)) (query : String)
    (cache : List EmbRecord) : List ScoredR :=
  if cache.length = 0 then []
  else if cache.any (fun c => c.embedding.isSome) then
    retrieveByEmbedding qEmb query cache
  else
    (retrieveByKeyword query cache).map zToR

/-- A retrieved chunk as consumed by the responder, which reads only the
text and type fields. -/
structure CtxChunk where
  text : String
  type : String
deriving DecidableEq, Inhabited

/-- The fixed insufficient-information message (rag/llm.js line 75). -/
def insufficientInfoMsg : String :=
  "I don\x27t have enough information to answer that question. Please try asking about the portfolio owner\x27s skills, projects, or experience."

/-- generateFallbackResponse (rag/llm.js lines 73 to 125): each intent block
returns only when its keyword test succeeds and a chunk of its type exists,
otherwise control falls through to the next block; the final statement wraps
the first (highest ranked) chunk. -/
def generateFallbackResponse (query : String) (chunks : List CtxChunk) : String :=
  if chunks.length = 0 then
    insufficientInfoMsg
  else
    let queryLower := toLowerStr query
    match (if strContains queryLower "project" then
        chunks.find? (fun c => c.type == "project") else none) with
    | some c => "Here\x27s information about a project: " ++ c.text
    | none =>
    match (if strContains queryLower "skill" || strContains queryLower "know" ||
        strContains queryLower "technology" then
        chunks.find? (fun c => c.type == "skill") else none) with
    | some c => "Here are some skills: " ++ c.text
    | none =>
    match (if strContains queryLower "experience" || strContains queryLower "work" ||
        strContains queryLower "job" then
        chunks.find? (fun c => c.type == "experience") else none) with
    | some c => "Here\x27s work experience: " ++ c.text
    | none =>
    match (if strContains queryLower "who" || strContains queryLower "about" ||
        strContains queryLower "name" then
        chunks.find? (fun c => c.type == "profile") else none) with
    | some c => c.text
    | none =>
    match (if strContains queryLower "certif" || strContains queryLower "credential" ||
        strContains queryLower "qualified" then
        chunks.find? (fun c => c.type == "certification") else none) with
    | some c => "Here are certifications: " ++ c.text
    | none =>
    match (if strContains queryLower "interest" || strContains queryLower "hobby" ||
        strContains queryLower "hobbies" || strContains queryLower "fun" then
        chunks.find? (fun c => c.type == "interests") else none) with
    | some c => c.text
    | none => "Based on the portfolio: " ++ chunks.headI.text

/-- The fixed persona and style directive of generateResponse (rag/llm.js
lines 32 to 51), with the concatenated chunk texts appended as context. -/
def systemPrompt (context : String) : String :=
  "You are a professional AI assistant representing Saurabh Suman\x27s portfolio website. Your role is to provide polished, articulate, and engaging responses about Saurabh\x27s professional background.\n\n" ++
  "## Response Guidelines:\n" ++
  "- **Tone**: Professional yet approachable, confident but not boastful\n" ++
  "- **Style**: Write in third person when discussing Saurabh (e.g., \"He has...\" not \"I have...\")\n" ++
  "- **Format**: Use clean, well-structured responses. Avoid excessive bullet points or markdown unless listing multiple items\n" ++
  "- **Length**: Be concise but comprehensive. Aim for 2-4 sentences for simple questions, more for complex ones\n" ++
  "- **Accuracy**: Only use information from the provided context. Never fabricate details\n" ++
  "- **Personality**: Present Saurabh as a seasoned professional with deep expertise\n\n" ++
  "## Formatting Rules:\n" ++
  "- For certifications: Mention the credential name and issuing organization naturally, without verification URLs\n" ++
  "- For experience: Highlight key achievements and impact, not just job duties\n" ++
  "- For skills: Group related technologies and explain practical application when relevant\n" ++
  "- For projects: Emphasize the problem solved and technologies used\n\n" ++
  "If a question cannot be answered from the context, politely explain that specific information isn\x27t available and suggest what you can help with instead.\n\n" ++
  "Context about Saurabh:\n" ++ context

/-- generateResponse (rag/llm.js lines 14 to 68): completeFn stands for the
awaited chat.completions.create call, returning some completion text or none
when the call rejects; the catch handler resolves to the fallback template. -/
def generateResponse (cfg : ProviderCfg) (completeFn : String → String → Option String)
    (query : String) (chunks : List CtxChunk) : String :=
  let context := String.intercalate "\n\n" (chunks.map (fun c => c.text))
  if ¬ cfg.configured then
    generateFallbackResponse query chunks
  else
    match completeFn (systemPrompt context) query with
    | some text => text
    | none => generateFallbackResponse query chunks

/-- A fallback topic rule as described by the specification: a keyword test
on the lower-cased query, the chunk type it selects, and the sentence
template wrapping the selected chunk text. -/
structure FallbackRule where
  applies : String → Bool
  ftype : String
  render : String → String

/-- The six fallback topics in the fixed priority order of the
specification: project, skill, experience, identity, certification,
interests. -/
def fallbackRules : List FallbackRule :=
  [ { applies := fun q => strContains q "project", ftype := "project",
      render := fun t => "Here\x27s information about a project: " ++ t },
    { applies := fun q => strContains q "skill" || strContains q "know" ||
        strContains q "technology", ftype := "skill",
      render := fun t => "Here are some skills: " ++ t },
    { applies := fun q => strContains q "experience" || strContains q "work" ||
        strContains q "job", ftype := "experience",
      render := fun t => "Here\x27s work experience: " ++ t },
    { applies := fun q => strContains q "who" || strContains q "about" ||
        strContains q "name", ftype := "profile",
      render := fun t => t },
    { applies := fun q => strContains q "certif" || strContains q "credential" ||
        strContains q "qualified", ftype := "certification",
      render := fun t => "Here are certifications: " ++ t },
    { applies := fun q => strContains q "interest" || strContains q "hobby" ||
        strContains q "hobbies" || strContains q "fun", ftype := "interests",
      render := fun t => t } ]

/-- First rule whose keyword test succeeds and whose chunk type is present,
rendered on the found chunk. -/
def firstTopicHit (qLower : String) (chunks : List CtxChunk) :
    List FallbackRule → Option String
  | [] => none
  | r :: rs =>
      if r.applies qLower then
        match chunks.find? (fun c => c.type == r.ftype) with
        | some c => some (r.render c.text)
        | none => firstTopicHit qLower chunks rs
      else firstTopicHit qLower chunks rs

/-- Specification-shaped fallback template: the fixed message on an empty
chunk list, otherwise the first matching topic in priority order, with the
generic wrap of the highest-ranked chunk as default. -/
def fallbackSpec (query : String) (chunks : List CtxChunk) : String :=
  match chunks with
  | [] => insufficientInfoMsg
  | c0 :: _ =>
      (firstTopicHit (toLowerStr query) chunks fallbackRules).getD
        ("Based on the portfolio: " ++ c0.text)

lemma initEmbeddings_textType (d : Option Doc) (cfg : ProviderCfg)
    (f : String → Option (List ℝ)) :
    (initEmbeddings d cfg f).map (fun r => (r.text, r.type)) =
      (chunkPortfolio d).map (fun c => (c.text, c.type)) := by
  by_cases h0 : (chunkPortfolio d).length = 0
  · rw [List.length_eq_zero] at h0
    simp [initEmbeddings, h0]
  · by_cases h1 : cfg.configured
    · by_cases h2 : cfg.supportsEmb
      · by_cases h3 : (chunkPortfolio d).all (fun c => (f c.text).isSome) <;>
          simp [initEmbeddings, h0, h1, h2, h3]
      · simp [initEmbeddings, h0, h1, h2]
    · simp [initEmbeddings, h0, h1]

/-- C3: generateResponse always resolves to a string for its caller (it is a
total function into String): when the provider is unconfigured it returns
the fallback template directly; when the completion call fails it falls
through to the fallback template; when the completion call succeeds it
returns the completion text verbatim, bypassing the template. -/
theorem generateResponse_error_handling (cfg : ProviderCfg)
    (completeFn : String → String → Option String) (query : String)
    (chunks : List CtxChunk) :
    (cfg.configured = false →
      generateResponse cfg completeFn query chunks = generateFallbackResponse query chunks) ∧
    (∀ t, cfg.configured = true →
      completeFn (systemPrompt (String.intercalate "\n\n" (chunks.map (fun c => c.text)))) query =
        some t →
      generateResponse cfg completeFn query chunks = t) ∧
    (completeFn (systemPrompt (String.intercalate "\n\n" (chunks.map (fun c => c.text)))) query =
        none →
      generateResponse cfg completeFn query chunks = generateFallbackResponse query chunks) := by
  refine ⟨fun h => ?_, fun t hc hs => ?_, fun hn => ?_⟩
  · simp [generateResponse, h]
  · simp [generateResponse, hc, hs]
  · cases h : cfg.configured <;> simp [generateResponse, h, hn]

/-- Witness for C3 at concrete inputs: an unconfigured provider falls back,
a successful completion is returned verbatim, and a failing completion falls
back. -/
theorem generateResponse_error_handling_witness :
    generateResponse { configured := false, supportsEmb := false }
        (fun _ _ => some "ignored") "hello" [] =
      generateFallbackResponse "hello" [] ∧
    generateResponse { configured := true, supportsEmb := true }
        (fun _ _ => some "verbatim answer") "hello" [] = "verbatim answer" ∧
    generateResponse { configured := true, supportsEmb := true }
        (fun _ _ => none) "hello" [] = generateFallbackResponse "hello" [] := by
  refine ⟨?_, ?_, ?_⟩
  · exact (generateResponse_error_handling _ _ _ _).1 rfl
  · exact (generateResponse_error_handling _ _ _ _).2.1 "verbatim answer" rfl rfl
  · exact (generateResponse_error_handling _ _ _ _).2.2 rfl

/-- C9: rebuilding the cache twice from the same document yields caches with
identical text and type sequences, whatever the provider configuration and
embedding outcomes of each run (vectors aside). -/
theorem rebuild_idempotent_text_type (d : Option Doc) (cfg₁ cfg₂ : ProviderCfg)
    (f₁ f₂ : String → Option (List ℝ)) :
    (initEmbeddings d cfg₁ f₁).map (fun r => (r.text, r.type)) =
      (initEmbeddings d cfg₂ f₂).map (fun r => (r.text, r.type)) :=
  (initEmbeddings_textType d cfg₁ f₁).trans (initEmbeddings_textType d cfg₂ f₂).symm

/-- C7: the chunker is total over malformed input: an unreadable or
unparsable document yields the empty chunk sequence; the chunk list is the
concatenation of the independent per-section contributions; and a section
that is missing (or falsy) or a non-array value contributes zero chunks. -/
theorem chunker_total_sections :
    chunkPortfolio none = [] ∧
    (∀ d : Doc, chunkPortfolio (some d) =
      profilePart d.profile ++ skillsPart d.skills ++ projectsPart d.projects ++
        experiencePart d.experience ++ educationPart d.education ++
        certificationsPart d.certifications ++ interestsPart d.interests ++
        socialsPart d.socials) ∧
    profilePart none = [] ∧
    skillsPart Sect.missing = [] ∧ skillsPart Sect.notArray = [] ∧
    projectsPart Sect.missing = [] ∧ projectsPart Sect.notArray = [] ∧
    experiencePart Sect.missing = [] ∧ experiencePart Sect.notArray = [] ∧
    educationPart Sect.missing = [] ∧ educationPart Sect.notArray = [] ∧
    certificationsPart Sect.missing = [] ∧ certificationsPart Sect.notArray = [] ∧
    interestsPart Sect.missing = [] ∧ interestsPart Sect.notArray = [] ∧
    socialsPart Sect.missing = [] ∧ socialsPart Sect.notArray = [] := by
  refine ⟨rfl, fun d => ?_, rfl, rfl, rfl, rfl, rfl, rfl, rfl, rfl, rfl, rfl, rfl, rfl, rfl, rfl, rfl⟩
  have h := chunkPortfolio_eq_spec (some d)
  simpa [chunkPortfolioSpec] using h

lemma initEmbeddings_cases (d : Option Doc) (cfg : ProviderCfg)
    (f : String → Option (List ℝ)) :
    initEmbeddings d cfg f = [] ∨
    (cfg.configured = true ∧ cfg.supportsEmb = true ∧
      (chunkPortfolio d).all (fun c => (f c.text).isSome) = true ∧
      initEmbeddings d cfg f = (chunkPortfolio d).map (fun c =>
        { id := c.id, type := c.type, text := c.text, embedding := f c.text })) ∨
    initEmbeddings d cfg f = (chunkPortfolio d).map (fun c =>
      { id := c.id, type := c.type, text := c.text, embedding := none }) := by
  by_cases h0 : (chunkPortfolio d).length = 0
  · exact Or.inl (by simp [initEmbeddings, h0])
  · by_cases h1 : cfg.configured
    · by_cases h2 : cfg.supportsEmb
      · by_cases h3 : (chunkPortfolio d).all (fun c => (f c.text).isSome)
        · exact Or.inr (Or.inl ⟨h1, h2, h3, by simp [initEmbeddings, h0, h1, h2, h3]⟩)
        · exact Or.inr (Or.inr (by simp [initEmbeddings, h0, h1, h2, h3]))
      · exact Or.inr (Or.inr (by simp [initEmbeddings, h0, h1, h2]))
    · exact Or.inr (Or.inr (by simp [initEmbeddings, h0, h1]))

/-- C2: after any single rebuild the published cache is all-or-nothing:
either every record carries a vector or every record has no embedding; and
if the provider is unconfigured, does not support embeddings, or any one
embedding call fails, every record in the cache has no embedding. -/
theorem rebuild_all_or_nothing (d : Option Doc) (cfg : ProviderCfg)
    (f : String → Option (List ℝ)) :
    ((∀ r ∈ initEmbeddings d cfg f, r.embedding.isSome = true) ∨
      (∀ r ∈ initEmbeddings d cfg f, r.embedding = none)) ∧
    ((cfg.configured = false ∨ cfg.supportsEmb = false ∨
        ∃ c ∈ chunkPortfolio d, f c.text = none) →
      ∀ r ∈ initEmbeddings d cfg f, r.embedding = none) := by
  rcases initEmbeddings_cases d cfg f with h | ⟨h1, h2, h3, h⟩ | h
  · exact ⟨Or.inr (by simp [h]), fun _ => by simp [h]⟩
  · constructor
    · left
      intro r hr
      rw [h] at hr
      obtain ⟨c, hc, rfl⟩ := List.mem_map.mp hr
      exact List.all_eq_true.mp h3 c hc
    · intro hfail
      rcases hfail with hc | hc | ⟨c, hc, hnone⟩
      · simp [h1] at hc
      · simp [h2] at hc
      · have := List.all_eq_true.mp h3 c hc
        simp [hnone] at this
  · have hcache : ∀ r ∈ initEmbeddings d cfg f, r.embedding = none := by
      intro r hr
      rw [h] at hr
      obtain ⟨c, hc, rfl⟩ := List.mem_map.mp hr
      rfl
    exact ⟨Or.inr hcache, fun _ => hcache⟩

/-- Witness for C2 at a concrete document of one profile chunk: with an
unconfigured provider the single published record has no embedding. -/
theorem rebuild_all_or_nothing_witness :
    (initEmbeddings
        (some { profile := some { name := "Jane", title := "Dev", location := "X",
                                  email := "j@x", summary := "S" },
                skills := Sect.missing, projects := Sect.missing,
                experience := Sect.missing, education := Sect.missing,
                certifications := Sect.missing, interests := Sect.missing,
                socials := Sect.missing })
        { configured := false, supportsEmb := true } (fun _ => none)).all
      (fun r => r.embedding.isNone) = true := by
  have h := (rebuild_all_or_nothing
    (some { profile := some { name := "Jane", title := "Dev", location := "X",
                              email := "j@x", summary := "S" },
            skills := Sect.missing, projects := Sect.missing,
            experience := Sect.missing, education := Sect.missing,
            certifications := Sect.missing, interests := Sect.missing,
            socials := Sect.missing })
    { configured := false, supportsEmb := true } (fun _ => none)).2 (Or.inl rfl)
  exact List.all_eq_true.mpr (fun r hr => by simp [h r hr])

lemma topic_step (cond : Bool) (found : Option CtxChunk) (render : String → String)
    (orest : Option String) (d : String) :
    (if cond then (match found with
        | some c => some (render c.text)
        | none => orest) else orest).getD d =
      (match (if cond then found else none) with
        | some c => render c.text
        | none => orest.getD d) := by
  cases cond <;> cases found <;> simp

lemma topic_step_id (cond : Bool) (found : Option CtxChunk) (orest : Option String)
    (d : String) :
    (if cond then (match found with
        | some c => some c.text
        | none => orest) else orest).getD d =
      (match (if cond then found else none) with
        | some c => c.text
        | none => orest.getD d) := by
  cases cond <;> cases found <;> simp

/-- Counterexample to C6 as frozen: the claim names identity as the sole
topic whose branch returns the chunk text without a wrapping sentence, but
for the query fun, which matches no keyword of the project, skill,
experience, identity or certification topics and matches the interests
topic, the fallback over a single interests chunk returns exactly the bare
chunk text, with no topic-specific wrapping sentence around it. -/
theorem fallback_interests_bare_counterexample :
    strContains (toLowerStr "fun") "project" = false ∧
    strContains (toLowerStr "fun") "skill" = false ∧
    strContains (toLowerStr "fun") "know" = false ∧
    strContains (toLowerStr "fun") "technology" = false ∧
    strContains (toLowerStr "fun") "experience" = false ∧
    strContains (toLowerStr "fun") "work" = false ∧
    strContains (toLowerStr "fun") "job" = false ∧
    strContains (toLowerStr "fun") "who" = false ∧
    strContains (toLowerStr "fun") "about" = false ∧
    strContains (toLowerStr "fun") "name" = false ∧
    strContains (toLowerStr "fun") "certif" = false ∧
    strContains (toLowerStr "fun") "credential" = false ∧
    strContains (toLowerStr "fun") "qualified" = false ∧
    strContains (toLowerStr "fun") "fun" = true ∧
    generateFallbackResponse "fun"
      [{ text := "Interests and Hobbies: chess", type := "interests" }] =
      "Interests and Hobbies: chess" := by
  decide

/-- C6, amended (the code returns the bare chunk text for the interests
branch as well as the identity branch, not for identity alone): the
fallback template of the responder equals its specification: the fixed
insufficient-information message on an empty chunk list; otherwise the
first topic, in the priority order project, skill, experience, identity,
certification, interests, whose keyword test matches the lower-cased query
and whose chunk type is present, rendered through its fixed topic-specific
template, where the project, skill, experience and certification templates
wrap the chunk text in a sentence and the identity and interests templates
return the chunk text itself; and when no topic applies, a generic wrap of
the highest-ranked chunk text. -/
theorem fallback_template_spec (query : String) (chunks : List CtxChunk) :
    generateFallbackResponse query chunks = fallbackSpec query chunks := by
  cases chunks with
  | nil => rfl
  | cons c0 cs =>
      unfold generateFallbackResponse
      rw [if_neg (by simp)]
      simp only [fallbackSpec, fallbackRules, firstTopicHit]
      rw [topic_step, topic_step, topic_step, topic_step_id, topic_step, topic_step_id]
      simp [List.headI]

lemma length_retrieveByKeyword (q : String) (cache : List EmbRecord) :
    (retrieveByKeyword q cache).length = min TOP_K cache.length := by
  simp only [retrieveByKeyword]
  split
  · next h =>
      have h1 := List.length_filter_le (fun s => decide (0 < s.score))
        ((cache.map (fun c =>
          ({ text := c.text, type := c.type,
             score := keywordScore (queryTokens q) c } : ScoredZ))).mergeSort descZ)
      have h2 : ((cache.map (fun c =>
          ({ text := c.text, type := c.type,
             score := keywordScore (queryTokens q) c } : ScoredZ))).mergeSort descZ).length =
          cache.length := by simp
      simp only [List.length_take]
      omega
  · simp [List.length_take]

/-- C1: retrieval returns the empty result exactly on an empty cache, and on
a non-empty cache always returns min 5 cacheSize entries (in particular a
non-empty result), across all three paths: vector mode, per-call keyword
fallback when the query embedding is absent, and keyword mode. -/
theorem retrieve_length_invariant (qEmb : Option (List ℝ)) (query : String)
    (cache : List EmbRecord) :
    (cache = [] → retrieveRelevantChunks qEmb query cache = []) ∧
    (cache ≠ [] → (retrieveRelevantChunks qEmb query cache).length = min 5 cache.length) := by
  constructor
  · intro h
    simp [retrieveRelevantChunks, h]
  · intro h
    have hne : ¬ cache.length = 0 := by
      simpa [List.length_eq_zero] using h
    unfold retrieveRelevantChunks
    rw [if_neg hne]
    by_cases hemb : cache.any (fun c => c.embedding.isSome)
    · rw [if_pos hemb]
      cases qEmb with
      | none => simp [retrieveByEmbedding, length_retrieveByKeyword, TOP_K]
      | some qe => simp [retrieveByEmbedding, List.length_take, TOP_K]
    · rw [if_neg hemb]
      simp [length_retrieveByKeyword, TOP_K]

/-- Witness for C1: the empty cache returns the empty result, and a
one-record cache with a query whose tokens match nothing still returns
min 5 1 = 1 result. -/
theorem retrieve_length_invariant_witness :
    retrieveRelevantChunks none "" [] = [] ∧
    (retrieveRelevantChunks none "xq zv"
      [{ id := "profile", type := "profile", text := "Profile: T", embedding := none }]).length =
      min 5 1 := by
  constructor
  · exact (retrieve_length_invariant none "" []).1 rfl
  · exact (retrieve_length_invariant none "xq zv" _).2 (by simp)

lemma foldl_count_one {α : Type} (p : α → Bool) (l : List α) (i : ℤ) :
    l.foldl (fun acc w => if p w then acc + 1 else acc) i = i + l.countP p := by
  induction l generalizing i with
  | nil => simp
  | cons x xs ih =>
      by_cases h : p x <;> simp [List.countP_cons, h, ih] <;> omega

lemma foldl_count_two {α : Type} (p : α → Bool) (l : List α) (i : ℤ) :
    l.foldl (fun acc w => if p w then acc + 2 else acc) i = i + 2 * l.countP p := by
  induction l generalizing i with
  | nil => simp
  | cons x xs ih =>
      by_cases h : p x <;> simp [List.countP_cons, h, ih] <;> omega

/-- Keyword score as described by the specification: one point per query
token occurring as a substring of the lower-cased chunk text, plus two
points per topic keyword of the chunk type matched by some query token in
either containment direction. -/
def keywordScoreSpec (tokens : List String) (c : EmbRecord) : ℤ :=
  (tokens.countP (fun w => strContains (toLowerStr c.text) w) : ℤ) +
    2 * ((typeKeywords c.type).countP
      (fun k => tokens.any (fun w => strContains w k || strContains k w)) : ℤ)

/-- Query tokens as described by the specification: lower-case, split on
whitespace, discard tokens shorter than 3 characters. -/
def queryTokensSpec (q : String) : List String :=
  (splitP (toLowerStr q) Char.isWhitespace).filter (fun w => decide (3 ≤ w.length))

/-- Keyword retrieval as described by the specification: score every chunk,
sort by descending score (stably), and return the top 5 of the chunks with
positive score when at least 5 exist, otherwise the top 5 of the full sorted
list. -/
def retrieveByKeywordSpec (q : String) (cache : List EmbRecord) : List ScoredZ :=
  let tokens := queryTokensSpec q
  let scored := cache.map (fun c =>
    { text := c.text, type := c.type, score := keywordScoreSpec tokens c })
  let sorted := scored.mergeSort descZ
  let positives := sorted.filter (fun s => decide (0 < s.score))
  if 5 ≤ positives.length then positives.take 5 else sorted.take 5

lemma queryTokens_eq (q : String) : queryTokens q = queryTokensSpec q := by
  unfold queryTokens queryTokensSpec
  apply List.filter_congr
  intro w _
  exact decide_eq_decide.mpr (by omega)

lemma keywordScore_eq_spec (tokens : List String) (c : EmbRecord) :
    keywordScore tokens c = keywordScoreSpec tokens c := by
  unfold keywordScore keywordScoreSpec
  rw [foldl_count_two, foldl_count_one]
  ring

/-- C4: keyword retrieval computes exactly the specified scoring and
selection: tokens are the lower-cased whitespace fragments of length at
least 3; each chunk scores one point per token contained in its lower-cased
text plus two points per topic keyword of its type matched by some token in
either containment direction; chunks are sorted stably by descending score;
and the result is the top 5 positives when at least 5 chunks score above
zero, otherwise the top 5 of the full sorted list. -/
theorem keyword_retrieval_spec (q : String) (cache : List EmbRecord) :
    retrieveByKeyword q cache = retrieveByKeywordSpec q cache := by
  unfold retrieveByKeyword retrieveByKeywordSpec
  simp only [queryTokens_eq, keywordScore_eq_spec, TOP_K]

lemma descZ_trans : ∀ a b c : ScoredZ, descZ a b → descZ b c → descZ a c := by
  intro a b c hab hbc
  simp only [descZ, decide_eq_true_eq] at *
  omega

lemma descZ_total : ∀ a b : ScoredZ, descZ a b || descZ b a := by
  intro a b
  simp only [descZ, Bool.or_eq_true, decide_eq_true_eq]
  omega

lemma descR_trans : ∀ a b c : ScoredR, descR a b → descR b c → descR a c := by
  intro a b c hab hbc
  simp only [descR, decide_eq_true_eq] at *
  exact le_trans hbc hab

lemma descR_total : ∀ a b : ScoredR, descR a b || descR b a := by
  intro a b
  simp only [descR, Bool.or_eq_true, decide_eq_true_eq]
  exact le_total _ _

lemma mergeSort_filter_fiber {α : Type} (le : α → α → Bool)
    (htrans : ∀ a b c, le a b → le b c → le a c)
    (htotal : ∀ a b, le a b || le b a)
    (p : α → Bool) (hp : ∀ a b, p a = true → p b = true → le a b = true)
    (l : List α) : (l.mergeSort le).filter p = l.filter p := by
  have hpair : (l.filter p).Pairwise (fun a b => le a b = true) :=
    List.pairwise_of_forall_mem_list (fun a ha b hb =>
      hp a b (List.of_mem_filter ha) (List.of_mem_filter hb))
  have hsub : (l.filter p).Sublist (l.mergeSort le) :=
    List.sublist_mergeSort htrans htotal hpair (List.filter_sublist l)
  have hfil : (l.filter p).Sublist ((l.mergeSort le).filter p) := by
    have h2 := hsub.filter p
    rw [List.filter_filter] at h2
    simpa using h2
  have hperm : List.Perm ((l.mergeSort le).filter p) (l.filter p) := (l.mergeSort_perm le).filter p
  exact (hfil.eq_of_length hperm.length_eq.symm).symm

/-- C8: retrieval tie-break is stable in both modes: for every score value,
the result entries carrying that score form an order-preserving subsequence
of the scored cache in its original order, so chunks with equal scores
appear in the result in cache order (and retrieval over a fixed cache and
query is a function of its arguments, hence deterministic). -/
theorem retrieval_tie_break_stable :
    (∀ (q : String) (cache : List EmbRecord) (s : ℤ),
      ((retrieveByKeyword q cache).filter (fun r => r.score == s)).Sublist
        ((cache.map (fun c =>
          ({ text := c.text, type := c.type,
             score := keywordScore (queryTokens q) c } : ScoredZ))).filter
          (fun r => r.score == s))) ∧
    (∀ (qe : List ℝ) (q : String) (cache : List EmbRecord) (s : ℝ),
      ((retrieveByEmbedding (some qe) q cache).filter (fun r => decide (r.score = s))).Sublist
        ((cache.map (fun c =>
          ({ text := c.text, type := c.type,
             score := cosineSimilarity (some qe) c.embedding } : ScoredR))).filter
          (fun r => decide (r.score = s)))) := by
  constructor
  · intro q cache s
    simp only [retrieveByKeyword]
    have hfib := mergeSort_filter_fiber descZ descZ_trans descZ_total
      (fun r => r.score == s)
      (fun a b ha hb => by
        simp only [beq_iff_eq] at ha hb
        simp [descZ, ha, hb])
      (cache.map (fun c =>
        ({ text := c.text, type := c.type,
           score := keywordScore (queryTokens q) c } : ScoredZ)))
    split
    · have t1 := (List.take_sublist TOP_K
        (((cache.map (fun c =>
          ({ text := c.text, type := c.type,
             score := keywordScore (queryTokens q) c } : ScoredZ))).mergeSort descZ).filter
          (fun r => decide (0 < r.score)))).filter (fun r => r.score == s)
      have t2 : ((((cache.map (fun c =>
          ({ text := c.text, type := c.type,
             score := keywordScore (queryTokens q) c } : ScoredZ))).mergeSort descZ).filter
            (fun r => decide (0 < r.score))).filter (fun r => r.score == s)).Sublist
          ((((cache.map (fun c =>
          ({ text := c.text, type := c.type,
             score := keywordScore (queryTokens q) c } : ScoredZ))).mergeSort descZ).filter
            (fun r => r.score == s))) := by
        rw [List.filter_filter]
        exact List.monotone_filter_right _ (fun a h => by
          simp only [Bool.and_eq_true] at h
          exact h.1)
      exact t1.trans (hfib ▸ t2)
    · have t1 := (List.take_sublist TOP_K
        ((cache.map (fun c =>
          ({ text := c.text, type := c.type,
             score := keywordScore (queryTokens q) c } : ScoredZ))).mergeSort descZ)).filter
        (fun r => r.score == s)
      exact hfib ▸ t1
  · intro qe q cache s
    simp only [retrieveByEmbedding]
    have hfib := mergeSort_filter_fiber descR descR_trans descR_total
      (fun r => decide (r.score = s))
      (fun a b ha hb => by
        simp only [decide_eq_true_eq] at ha hb
        simp [descR, ha, hb])
      (cache.map (fun c =>
        ({ text := c.text, type := c.type,
           score := cosineSimilarity (some qe) c.embedding } : ScoredR)))
    have t1 := (List.take_sublist TOP_K
      ((cache.map (fun c =>
        ({ text := c.text, type := c.type,
           score := cosineSimilarity (some qe) c.embedding } : ScoredR))).mergeSort descR)).filter
      (fun r => decide (r.score = s))
    exact hfib ▸ t1

lemma profilePart_types (o : Option ProfileRec) :
    (profilePart o).map (fun c => c.type) = List.replicate (profilePart o).length "profile" := by
  cases o <;> simp [profilePart]

lemma skillsPart_types (s : Sect SkillCat) :
    (skillsPart s).map (fun c => c.type) = List.replicate (skillsPart s).length "skill" := by
  cases s <;> simp [skillsPart, List.map_map, Function.comp_def, List.map_const', List.enum_length]

lemma projectsPart_types (s : Sect ProjectRec) :
    (projectsPart s).map (fun c => c.type) = List.replicate (projectsPart s).length "project" := by
  cases s <;> simp [projectsPart, List.map_map, Function.comp_def, List.map_const', List.enum_length]

lemma experiencePart_types (s : Sect ExperienceRec) :
    (experiencePart s).map (fun c => c.type) =
      List.replicate (experiencePart s).length "experience" := by
  cases s <;> simp [experiencePart, List.map_map, Function.comp_def, List.map_const', List.enum_length]

lemma educationPart_types (s : Sect EduRec) :
    (educationPart s).map (fun c => c.type) =
      List.replicate (educationPart s).length "education" := by
  cases s <;> simp [educationPart, List.map_map, Function.comp_def, List.map_const', List.enum_length]

lemma certificationsPart_types (s : Sect CertRec) :
    (certificationsPart s).map (fun c => c.type) =
      List.replicate (certificationsPart s).length "certification" := by
  cases s <;>
    simp [certificationsPart, List.map_map, Function.comp_def, List.map_const', List.enum_length,
      List.replicate_succ']

lemma interestsPart_types (s : Sect String) :
    (interestsPart s).map (fun c => c.type) =
      List.replicate (interestsPart s).length "interests" := by
  cases s <;> simp [interestsPart]

lemma socialsPart_types (s : Sect SocialRec) :
    (socialsPart s).map (fun c => c.type) = List.replicate (socialsPart s).length "social" := by
  cases s <;> simp [socialsPart]

/-- C10: the chunker emits chunks in the fixed section order profile,
skills, projects, experience, education, certifications (the per-item chunks
then the summary), interests, socials: the type sequence of the emitted
chunks is the corresponding concatenation of constant blocks; hence a
document with a profile has the profile chunk at index 0; and when every
chunk scores zero for a query, keyword retrieval returns the first
min 5 cacheSize chunks in original cache order. -/
theorem chunk_section_order_zero_tier :
    (∀ (d : Doc) (p : ProfileRec), d.profile = some p →
      (chunkPortfolio (some d)).head? =
        some { id := "profile", type := "profile", text := profileText p }) ∧
    (∀ d : Doc, (chunkPortfolio (some d)).map (fun c => c.type) =
      List.replicate (profilePart d.profile).length "profile" ++
        List.replicate (skillsPart d.skills).length "skill" ++
        List.replicate (projectsPart d.projects).length "project" ++
        List.replicate (experiencePart d.experience).length "experience" ++
        List.replicate (educationPart d.education).length "education" ++
        List.replicate (certificationsPart d.certifications).length "certification" ++
        List.replicate (interestsPart d.interests).length "interests" ++
        List.replicate (socialsPart d.socials).length "social") ∧
    (∀ (q : String) (cache : List EmbRecord),
      (∀ c ∈ cache, keywordScore (queryTokens q) c = 0) →
      retrieveByKeyword q cache =
        (cache.map (fun c =>
          ({ text := c.text, type := c.type, score := 0 } : ScoredZ))).take 5) := by
  refine ⟨fun d p h => ?_, fun d => ?_, fun q cache hzero => ?_⟩
  · rw [chunkPortfolio_eq_spec]
    simp [chunkPortfolioSpec, profilePart, h]
  · rw [chunkPortfolio_eq_spec]
    simp only [chunkPortfolioSpec, List.map_append]
    rw [profilePart_types, skillsPart_types, projectsPart_types, experiencePart_types,
      educationPart_types, certificationsPart_types, interestsPart_types, socialsPart_types]
  · simp only [retrieveByKeyword]
    have hmap : cache.map (fun c =>
        ({ text := c.text, type := c.type, score := keywordScore (queryTokens q) c } : ScoredZ)) =
        cache.map (fun c => ({ text := c.text, type := c.type, score := 0 } : ScoredZ)) :=
      List.map_congr_left (fun c hc => by rw [hzero c hc])
    rw [hmap]
    have hsorted : (cache.map (fun c =>
        ({ text := c.text, type := c.type, score := 0 } : ScoredZ))).mergeSort descZ =
        cache.map (fun c => ({ text := c.text, type := c.type, score := 0 } : ScoredZ)) :=
      List.mergeSort_of_sorted (List.pairwise_of_forall_mem_list (fun a ha b hb => by
        obtain ⟨ca, _, rfl⟩ := List.mem_map.mp ha
        obtain ⟨cb, _, rfl⟩ := List.mem_map.mp hb
        simp [descZ]))
    rw [hsorted]
    have hfilter : (cache.map (fun c =>
        ({ text := c.text, type := c.type, score := 0 } : ScoredZ))).filter
          (fun s => decide (0 < s.score)) = [] := by
      rw [List.filter_eq_nil_iff]
      intro a ha
      obtain ⟨ca, _, rfl⟩ := List.mem_map.mp ha
      simp
    rw [hfilter]
    simp [TOP_K]

/-- Witness for C10: a one-profile document has its profile chunk at index
0, and a query scoring zero on a one-record cache returns that record with
score 0. -/
theorem chunk_section_order_zero_tier_witness :
    (chunkPortfolio (some { profile := some { name := "Jane", title := "Dev", location := "X",
                                              email := "j@x", summary := "S" },
                            skills := Sect.missing, projects := Sect.missing,
                            experience := Sect.missing, education := Sect.missing,
                            certifications := Sect.missing, interests := Sect.missing,
                            socials := Sect.missing })).head? =
      some { id := "profile", type := "profile",
             text := profileText { name := "Jane", title := "Dev", location := "X",
                                   email := "j@x", summary := "S" } } ∧
    retrieveByKeyword "zz" [{ id := "profile", type := "profile", text := "Profile: T",
                              embedding := none }] =
      [{ text := "Profile: T", type := "profile", score := 0 }] := by
  constructor
  · exact chunk_section_order_zero_tier.1 _ _ rfl
  · have h := chunk_section_order_zero_tier.2.2 "zz"
      [{ id := "profile", type := "profile", text := "Profile: T", embedding := none }]
      (by decide)
    rw [h]
    rfl

lemma sumSq_cons (x : ℝ) (xs : List ℝ) : sumSq (x :: xs) = x * x + sumSq xs := by
  simp [sumSq]

lemma sumSq_nonneg (v : List ℝ) : 0 ≤ sumSq v := by
  unfold sumSq
  apply List.sum_nonneg
  intro x hx
  obtain ⟨y, -, rfl⟩ := List.mem_map.mp hx
  exact mul_self_nonneg y

lemma dotL_self (v : List ℝ) : dotL v v = sumSq v := by
  induction v with
  | nil => rfl
  | cons x xs ih => simp only [dotL, sumSq, List.zipWith_cons_cons, List.map_cons,
      List.sum_cons] at ih ⊢; rw [ih]

lemma sumSq_eq_zero_iff (v : List ℝ) : sumSq v = 0 ↔ ∀ x ∈ v, x = 0 := by
  induction v with
  | nil => simp [sumSq]
  | cons x xs ih =>
      rw [sumSq_cons]
      constructor
      · intro h
        have h1 : x * x = 0 ∧ sumSq xs = 0 := by
          constructor <;> nlinarith [mul_self_nonneg x, sumSq_nonneg xs]
        intro y hy
        rcases List.mem_cons.mp hy with rfl | hy
        · exact mul_self_eq_zero.mp h1.1
        · exact (ih.mp h1.2) y hy
      · intro h
        have hx : x = 0 := h x (List.mem_cons_self x xs)
        have hxs : sumSq xs = 0 := ih.mpr (fun y hy => h y (List.mem_cons_of_mem _ hy))
        rw [hx, hxs]
        ring

lemma dotL_sq_le (a : List ℝ) : ∀ b : List ℝ, dotL a b ^ 2 ≤ sumSq a * sumSq b := by
  induction a with
  | nil =>
      intro b
      simp [dotL, sumSq]
  | cons x as ih =>
      intro b
      cases b with
      | nil => simp [dotL, sumSq]
      | cons y bs =>
          have hA := sumSq_nonneg as
          have hB := sumSq_nonneg bs
          have hd := ih bs
          have hsA : Real.sqrt (sumSq as) ^ 2 = sumSq as := Real.sq_sqrt hA
          have hsB : Real.sqrt (sumSq bs) ^ 2 = sumSq bs := Real.sq_sqrt hB
          have hsAn : 0 ≤ Real.sqrt (sumSq as) := Real.sqrt_nonneg _
          have hsBn : 0 ≤ Real.sqrt (sumSq bs) := Real.sqrt_nonneg _
          have habs : |dotL as bs| ≤ Real.sqrt (sumSq as) * Real.sqrt (sumSq bs) := by
            have h1 : Real.sqrt (dotL as bs ^ 2) ≤ Real.sqrt (sumSq as * sumSq bs) :=
              Real.sqrt_le_sqrt hd
            rwa [Real.sqrt_sq_eq_abs, Real.sqrt_mul hA] at h1
          have hD1 := (abs_le.mp habs).2
          have hD2 := (abs_le.mp habs).1
          have hDsq : dotL as bs ^ 2 ≤ (Real.sqrt (sumSq as) * Real.sqrt (sumSq bs)) ^ 2 :=
            sq_le_sq' hD2 hD1
          have hgoal : dotL (x :: as) (y :: bs) = x * y + dotL as bs := by
            simp [dotL]
          rw [hgoal, sumSq_cons, sumSq_cons]
          rcases le_or_lt 0 (x * y) with hxy | hxy
          · nlinarith [sq_nonneg (x * Real.sqrt (sumSq bs) - y * Real.sqrt (sumSq as)),
              mul_nonneg hsAn hsBn]
          · nlinarith [sq_nonneg (x * Real.sqrt (sumSq bs) + y * Real.sqrt (sumSq as)),
              mul_nonneg hsAn hsBn]

lemma cosine_guard_none_left (w : Option (List ℝ)) : cosineSimilarity none w = 0 := by
  cases w <;> rfl

lemma cosine_guard_none_right (v : Option (List ℝ)) : cosineSimilarity v none = 0 := by
  cases v <;> rfl

lemma cosine_guard_length {a b : List ℝ} (h : a.length ≠ b.length) :
    cosineSimilarity (some a) (some b) = 0 := by
  simp [cosineSimilarity, h]

lemma cosine_guard_zero_norm {a b : List ℝ} (h : sumSq a = 0 ∨ sumSq b = 0) :
    cosineSimilarity (some a) (some b) = 0 := by
  by_cases hlen : a.length ≠ b.length
  · simp [cosineSimilarity, hlen]
  · simp [cosineSimilarity, hlen, h]

lemma cosine_self_one {v : List ℝ} (hv : sumSq v ≠ 0) :
    cosineSimilarity (some v) (some v) = 1 := by
  have hA : 0 < sumSq v := lt_of_le_of_ne (sumSq_nonneg v) (Ne.symm hv)
  have hcos : cosineSimilarity (some v) (some v) =
      dotL v v / (Real.sqrt (sumSq v) * Real.sqrt (sumSq v)) := by
    simp [cosineSimilarity, hv]
  rw [hcos, dotL_self, Real.mul_self_sqrt hA.le, div_self hv]

lemma cosine_bounds (v w : Option (List ℝ)) :
    -1 ≤ cosineSimilarity v w ∧ cosineSimilarity v w ≤ 1 := by
  cases v with
  | none => rw [cosine_guard_none_left]; norm_num
  | some a =>
    cases w with
    | none => rw [cosine_guard_none_right]; norm_num
    | some b =>
        by_cases hlen : a.length ≠ b.length
        · rw [cosine_guard_length hlen]; norm_num
        · by_cases hz : sumSq a = 0 ∨ sumSq b = 0
          · rw [cosine_guard_zero_norm hz]; norm_num
          · push_neg at hz
            have hA : 0 < sumSq a := lt_of_le_of_ne (sumSq_nonneg a) (Ne.symm hz.1)
            have hB : 0 < sumSq b := lt_of_le_of_ne (sumSq_nonneg b) (Ne.symm hz.2)
            have hcos : cosineSimilarity (some a) (some b) =
                dotL a b / (Real.sqrt (sumSq a) * Real.sqrt (sumSq b)) := by
              simp [cosineSimilarity, hlen]
              intro h
              exact absurd h (by simp [hz.1, hz.2])
            have hden : 0 < Real.sqrt (sumSq a) * Real.sqrt (sumSq b) :=
              mul_pos (Real.sqrt_pos.mpr hA) (Real.sqrt_pos.mpr hB)
            have habs : |dotL a b| ≤ Real.sqrt (sumSq a) * Real.sqrt (sumSq b) := by
              have h1 : Real.sqrt (dotL a b ^ 2) ≤ Real.sqrt (sumSq a * sumSq b) :=
                Real.sqrt_le_sqrt (dotL_sq_le a b)
              rwa [Real.sqrt_sq_eq_abs, Real.sqrt_mul hA.le] at h1
            have hq : |cosineSimilarity (some a) (some b)| ≤ 1 := by
              rw [hcos, abs_div, abs_of_pos hden]
              exact div_le_one_of_le₀ habs hden.le
            exact abs_le.mp hq

lemma keywordScore_nonneg (tokens : List String) (c : EmbRecord) :
    0 ≤ keywordScore tokens c := by
  rw [keywordScore_eq_spec]
  unfold keywordScoreSpec
  positivity

lemma mem_retrieveByKeyword_nonneg (q : String) (cache : List EmbRecord) :
    ∀ r ∈ retrieveByKeyword q cache, 0 ≤ r.score := by
  intro r hr
  simp only [retrieveByKeyword] at hr
  have hr2 : r ∈ (cache.map (fun c =>
      ({ text := c.text, type := c.type,
         score := keywordScore (queryTokens q) c } : ScoredZ))).mergeSort descZ := by
    by_cases hc : TOP_K ≤ (((cache.map (fun c =>
        ({ text := c.text, type := c.type,
           score := keywordScore (queryTokens q) c } : ScoredZ))).mergeSort descZ).filter
          (fun s => decide (0 < s.score))).length
    · rw [if_pos hc] at hr
      exact (List.mem_filter.mp (List.mem_of_mem_take hr)).1
    · rw [if_neg hc] at hr
      exact List.mem_of_mem_take hr
  rw [List.mem_mergeSort] at hr2
  obtain ⟨c, -, rfl⟩ := List.mem_map.mp hr2
  exact keywordScore_nonneg _ _

/-- C5: cosineSimilarity returns exactly 0 when either vector is absent,
when the lengths differ, and when either norm accumulator is zero; it is
exactly 1 on any non-zero vector paired with itself (the floating-point
approximation of the specification is exact in the real-number model);
every value it returns lies in the interval from -1 to 1; and every score
produced by keyword retrieval is a non-negative integer. -/
theorem cosine_similarity_spec :
    (∀ w, cosineSimilarity none w = 0) ∧
    (∀ v, cosineSimilarity v none = 0) ∧
    (∀ a b : List ℝ, a.length ≠ b.length → cosineSimilarity (some a) (some b) = 0) ∧
    (∀ a b : List ℝ, sumSq a = 0 ∨ sumSq b = 0 → cosineSimilarity (some a) (some b) = 0) ∧
    (∀ v : List ℝ, (∃ x ∈ v, x ≠ 0) → cosineSimilarity (some v) (some v) = 1) ∧
    (∀ v w, -1 ≤ cosineSimilarity v w ∧ cosineSimilarity v w ≤ 1) ∧
    (∀ (q : String) (cache : List EmbRecord), ∀ r ∈ retrieveByKeyword q cache, 0 ≤ r.score) := by
  refine ⟨cosine_guard_none_left, cosine_guard_none_right,
    fun a b h => cosine_guard_length h, fun a b h => cosine_guard_zero_norm h,
    fun v hv => cosine_self_one ?_, cosine_bounds, mem_retrieveByKeyword_nonneg⟩
  intro h0
  obtain ⟨x, hx, hxne⟩ := hv
  exact hxne ((sumSq_eq_zero_iff v).mp h0 x hx)

/-- Witness for C5 at concrete vectors: the absent, length-mismatch and
zero-norm guards return 0, a non-zero vector has self-similarity 1, a
concrete similarity lies in the interval, and a concrete keyword retrieval
score is non-negative. -/
theorem cosine_similarity_spec_witness :
    cosineSimilarity none (some [1]) = 0 ∧
    cosineSimilarity (some [1]) none = 0 ∧
    cosineSimilarity (some [1]) (some [1, 2]) = 0 ∧
    cosineSimilarity (some [0]) (some [0]) = 0 ∧
    cosineSimilarity (some [2]) (some [2]) = 1 ∧
    (-1 ≤ cosineSimilarity (some [1, 2]) (some [3, 4]) ∧
      cosineSimilarity (some [1, 2]) (some [3, 4]) ≤ 1) ∧
    (0 : ℤ) ≤ ({ text := "Profile: T", type := "profile", score := 0 } : ScoredZ).score := by
  refine ⟨cosine_similarity_spec.1 (some [1]), cosine_similarity_spec.2.1 (some [1]),
    cosine_similarity_spec.2.2.1 [1] [1, 2] (by simp),
    cosine_similarity_spec.2.2.2.1 [0] [0] (Or.inl (by norm_num [sumSq])),
    cosine_similarity_spec.2.2.2.2.1 [2] ⟨2, by simp, by norm_num⟩,
    cosine_similarity_spec.2.2.2.2.2.1 (some [1, 2]) (some [3, 4]),
    ?_⟩
  have hs : keywordScore (queryTokens "zz")
      { id := "profile", type := "profile", text := "Profile: T", embedding := none } = 0 := by
    decide
  have hmem : ({ text := "Profile: T", type := "profile", score := 0 } : ScoredZ) ∈
      retrieveByKeyword "zz"
        [{ id := "profile", type := "profile", text := "Profile: T", embedding := none }] := by
    simp [retrieveByKeyword, hs, TOP_K]
  exact cosine_similarity_spec.2.2.2.2.2.2 "zz"
    [{ id := "profile", type := "profile", text := "Profile: T", embedding := none }]
    { text := "Profile: T", type := "profile", score := 0 } hmem

end PortfolioRag
